import Mathlib

/-!
Verification of the ClassiCube audio backend (`src/AudioBackend.c`).

The C source is shallowly embedded: each backend's `struct AudioContext`
becomes a Lean structure, the backend entry points become pure functions
with the native driver's behaviour supplied as explicit oracle arguments
(error results of native calls, the set of buffers the driver has finished
consuming, memory-allocation success), and machine integers become
`Int`/`Nat` with C's truncating division written as `Int.tdiv`.
-/

/-- Result codes (`cc_result`).  `ok` is the C value `0`; in C any nonzero
value is an error, so the models test `≠ .ok` wherever C tests `if (res)`.
`badDeviceID` is WinMM's `MMSYSERR_BADDEVICEID`; `err n` stands for any
other backend-specific nonzero code. -/
inductive CCResult where
  | ok
  | invalidArg
  | oom
  | noAudioOutput
  | notSupported
  | badDeviceID
  | err (n : Nat)
deriving DecidableEq, Repr

/-- `#define Audio_AdjustSampleRate(sampleRate, playbackRate)
((sampleRate * playbackRate) / 100)` — C integer division truncates
toward zero, which is `Int.tdiv`. -/
def Audio_AdjustSampleRate (sampleRate playbackRate : Int) : Int :=
  (sampleRate * playbackRate).tdiv 100

namespace OpenAL

/-- `AL_FORMAT_MONO16` -/
def AL_FORMAT_MONO16 : Nat := 0x1101
/-- `AL_FORMAT_STEREO16` -/
def AL_FORMAT_STEREO16 : Nat := 0x1103

/-- OpenAL backend `struct AudioContext`.  `freeIDs` is the stack of free
buffer ids; the C array slot `freeIDs[free-1]` (the top of the stack) is
the head of the list, so `freeIDs[--ctx->free]` pops the head and
`freeIDs[ctx->free++] = b` pushes `b` on the head.  `source = 0` means no
source was created. -/
structure AudioContext where
  source : Nat
  count : Nat
  free : Nat
  freeIDs : List Nat
  sampleRate : Int
  format : Nat
deriving DecidableEq, Repr

/-- Driver-side state of the OpenAL source: buffers queued via
`alSourceQueueBuffers` that the driver has not yet finished (`pending`,
in queue order) and buffers it has finished consuming but that have not
been unqueued yet (`processed`, in completion order).
`AL_BUFFERS_PROCESSED` reports `processed.length`, and
`alSourceUnqueueBuffers(source, 1, &buffer)` pops the head of
`processed`. -/
structure SourceState where
  pending : List Nat
  processed : List Nat
deriving DecidableEq, Repr

/-- `Audio_Init` (OpenAL): generates a source and `buffers` buffer ids and
marks them all free (`ctx->freeIDs[i] = ctx->buffers[i]; ctx->free =
buffers`).  The generated ids are modelled as `1..buffers` and the source
handle as `1`; the driver-side queue starts empty. -/
def Audio_Init (buffers : Nat) : AudioContext × SourceState :=
  (⟨1, buffers, buffers, ((List.range buffers).map (· + 1)).reverse, 0, 0⟩, ⟨[], []⟩)

/-- `Audio_QueueChunk` (OpenAL).  `bufErr`/`queueErr` are the
`alGetError` results after `alBufferData` and `alSourceQueueBuffers`
(`none` = no error).  When `ctx->free` is zero it fails with
`ERR_INVALID_ARGUMENT` before touching anything; otherwise the top free
id is popped first, so a subsequent AL error leaks that id (it is neither
free nor queued). -/
def Audio_QueueChunk (bufErr queueErr : Option CCResult)
    (ctx : AudioContext) (src : SourceState) :
    CCResult × AudioContext × SourceState :=
  if ctx.free = 0 then (.invalidArg, ctx, src)
  else
    let buffer := ctx.freeIDs.headD 0
    let ctx := { ctx with free := ctx.free - 1, freeIDs := ctx.freeIDs.tail }
    match bufErr with
    | some e => (e, ctx, src)
    | none =>
      match queueErr with
      | some e => (e, ctx, src)
      | none => (.ok, ctx, { src with pending := src.pending ++ [buffer] })

/-- `Audio_Poll` (OpenAL), with a well-behaved driver (the `alGetSourcei`
and `alSourceUnqueueBuffers` calls themselves do not fail).  Returns
`(res, *inUse, ctx, source)`.  If no source exists it reports 0 in use.
`processed` is read from the driver; when it is positive the code
unqueues a single buffer and pushes it back on the free stack, then
reports `ctx->count - ctx->free` buffers in use. -/
def Audio_Poll (ctx : AudioContext) (src : SourceState) :
    CCResult × Nat × AudioContext × SourceState :=
  if ctx.source = 0 then (.ok, 0, ctx, src)
  else
    let processed := src.processed.length
    if 0 < processed then
      let buffer := src.processed.headD 0
      let src := { src with processed := src.processed.tail }
      let ctx := { ctx with freeIDs := buffer :: ctx.freeIDs, free := ctx.free + 1 }
      (.ok, ctx.count - ctx.free, ctx, src)
    else
      (.ok, ctx.count - ctx.free, ctx, src)

/-- `Audio_SetFormat` (OpenAL): stores the adjusted sample rate, then
picks the AL format from the channel count (failing on anything other
than 1 or 2 channels, with the sample rate already updated). -/
def Audio_SetFormat (ctx : AudioContext)
    (channels : Nat) (sampleRate playbackRate : Int) : CCResult × AudioContext :=
  let ctx := { ctx with sampleRate := Audio_AdjustSampleRate sampleRate playbackRate }
  if channels = 1 then (.ok, { ctx with format := AL_FORMAT_MONO16 })
  else if channels = 2 then (.ok, { ctx with format := AL_FORMAT_STEREO16 })
  else (.invalidArg, ctx)

/-- Environment event: the driver finishes consuming the first `k`
buffers of the queue, moving them from `pending` to `processed`.  (The
hardware can only finish buffers that were actually queued.) -/
def sourceFinish (k : Nat) (src : SourceState) : SourceState :=
  { pending := src.pending.drop k, processed := src.processed ++ src.pending.take k }

/-- Combined caller-visible and driver-side state. -/
structure ALState where
  ctx : AudioContext
  src : SourceState
deriving DecidableEq, Repr

/-- One step of an initialized context's lifecycle: a `QueueChunk` call
(with the AL error oracles), a `Poll` call, or the driver finishing `k`
queued buffers. -/
inductive ALOp where
  | queue (bufErr queueErr : Option CCResult)
  | poll
  | finish (k : Nat)
deriving DecidableEq, Repr

/-- State after `Audio_Init(ctx, n)`. -/
def initial (n : Nat) : ALState :=
  let (c, s) := Audio_Init n
  ⟨c, s⟩

def stepAL (s : ALState) : ALOp → ALState
  | .queue be qe =>
    let (_, c, sr) := Audio_QueueChunk be qe s.ctx s.src
    ⟨c, sr⟩
  | .poll =>
    let (_, _, c, sr) := Audio_Poll s.ctx s.src
    ⟨c, sr⟩
  | .finish k => ⟨s.ctx, sourceFinish k s.src⟩

/-- Run a sequence of operations from a given state. -/
def runAL (s : ALState) (ops : List ALOp) : ALState :=
  ops.foldl stepAL s

end OpenAL

/-- `ApplyVolume` (common backend code): scales 16-bit PCM samples in
place by `sample * volume / 100` (C `int` arithmetic, truncating
division).  The C loop handles groups of 8 samples (`count & ~0x07`)
followed by a remainder loop; the net effect on the sample list is kept
by recursing in groups of 8 with a `map` for the final partial group. -/
def ApplyVolume (samples : List Int) (volume : Int) : List Int :=
  match samples with
  | s0 :: s1 :: s2 :: s3 :: s4 :: s5 :: s6 :: s7 :: rest =>
    (s0 * volume).tdiv 100 :: (s1 * volume).tdiv 100 ::
    (s2 * volume).tdiv 100 :: (s3 * volume).tdiv 100 ::
    (s4 * volume).tdiv 100 :: (s5 * volume).tdiv 100 ::
    (s6 * volume).tdiv 100 :: (s7 * volume).tdiv 100 :: ApplyVolume rest volume
  | rest => rest.map (fun s => (s * volume).tdiv 100)

namespace WinMM

/-- One `WAVEHDR`: only the `WHDR_DONE` and `WHDR_PREPARED` flag bits
are relevant to the buffer-slot logic. -/
structure WAVEHDR where
  done : Bool
  prepared : Bool
deriving DecidableEq, Repr

/-- WinMM backend `struct AudioContext`.  `tmpData`/`tmpSize` are the
`_tmpData`/`_tmpSize` software-volume scratch-buffer fields; `tmpData`
records whether the scratch pointer is non-NULL (its address is
irrelevant to the logic).  The model keeps `headers.length = count`
(established by `Audio_Init`), standing for the first `count` slots of
the fixed `headers[AUDIO_MAX_BUFFERS]` array that every loop bounds by
`i < ctx->count`. -/
structure AudioContext where
  handleOpen : Bool
  headers : List WAVEHDR
  count : Nat
  channels : Nat
  sampleRate : Int
  volume : Nat
  tmpSize : Nat
  tmpData : Bool
deriving DecidableEq, Repr

/-- Outcome of `AudioBase_AdjustSound`.  `ok ctx out` is C `return true`
with `*data`/`*size` describing the sample list `out`; `failed` is
C `return false` (the caller turns it into `ERR_OUT_OF_MEMORY`);
`nullDeref` marks the `Mem_Copy` into a NULL scratch pointer (undefined
behaviour in the C). -/
inductive AdjustResult where
  | ok (ctx : AudioContext) (out : List Int)
  | failed
  | nullDeref
deriving DecidableEq, Repr

/-- `AudioBase_AdjustSound` (common backend code).  The caller's chunk is
the 16-bit sample list `samples`, so `src_size = 2 * samples.length`
bytes.  `allocOk` is whether `Mem_TryRealloc`/`Mem_TryAlloc` returns a
non-NULL scratch pointer; `dataParamNull` is whether the `void** data`
parameter itself is NULL (it never is: both call sites pass `&chunk`).
Note the source's error branch is `if (!data) return false;` — it tests
the `data` parameter, not the allocation result `audio`, so a failed
allocation falls through, stores the NULL pointer in `_tmpData`, and
`Mem_Copy(audio, *data, src_size)` dereferences NULL. -/
def AudioBase_AdjustSound (allocOk dataParamNull : Bool)
    (ctx : AudioContext) (samples : List Int) : AdjustResult :=
  let src_size := 2 * samples.length
  if 100 ≤ ctx.volume then .ok ctx samples
  else if ctx.tmpSize < src_size then
    let audio := allocOk
    if dataParamNull then .failed
    else
      let ctx := { ctx with tmpData := audio, tmpSize := src_size }
      if ctx.tmpData then .ok ctx (ApplyVolume samples ctx.volume)
      else .nullDeref
  else
    if ctx.tmpData then .ok ctx (ApplyVolume samples ctx.volume)
    else .nullDeref

/-- `Audio_Init` (WinMM): marks the `buffers` headers as `WHDR_DONE`
(free) and resets the volume to 100.  The handle, format fields and
scratch buffer are not touched. -/
def Audio_Init (ctx : AudioContext) (buffers : Nat) : CCResult × AudioContext :=
  (.ok, { ctx with headers := List.replicate buffers ⟨true, false⟩,
                   count := buffers, volume := 100 })

/-- Outcome of the WinMM `Audio_QueueChunk`: a returned result code with
the final context, or the NULL dereference inherited from
`AudioBase_AdjustSound`. -/
inductive QueueOutcome where
  | ret (res : CCResult) (ctx : AudioContext)
  | nullDeref
deriving DecidableEq, Repr

/-- `Audio_QueueChunk` (WinMM).  First `AudioBase_AdjustSound` runs (and
may grow the scratch buffer); then the headers are scanned for the first
one with `WHDR_DONE` set.  That header is zeroed (`Mem_Set`) and
refilled, `waveOutPrepareHeader` sets its `WHDR_PREPARED` flag
(`prepRes` oracle), and `waveOutWrite` hands it to the driver (`writeRes`
oracle).  If no header is `WHDR_DONE` the call fails with
`ERR_INVALID_ARGUMENT`. -/
def Audio_QueueChunk (allocOk dataParamNull : Bool) (prepRes writeRes : CCResult)
    (ctx : AudioContext) (samples : List Int) : QueueOutcome :=
  match AudioBase_AdjustSound allocOk dataParamNull ctx samples with
  | .failed => .ret .oom ctx
  | .nullDeref => .nullDeref
  | .ok ctx out =>
    match ctx.headers.findIdx? (fun h => h.done) with
    | none => .ret .invalidArg ctx
    | some i =>
      let _ := out
      let ctx := { ctx with headers := ctx.headers.set i ⟨false, false⟩ }
      if prepRes ≠ .ok then .ret prepRes ctx
      else
        let ctx := { ctx with headers := ctx.headers.set i ⟨false, true⟩ }
        if writeRes ≠ .ok then .ret writeRes ctx
        else .ret .ok ctx

/-- The header-scanning loop of `Audio_Poll` (WinMM).  `u i` is the
`waveOutUnprepareHeader` result for header `i`.  Headers without
`WHDR_DONE` are counted as in use; headers that are done and still
prepared are unprepared, and an unprepare failure `break`s out of the
loop (remaining headers are neither counted nor touched). -/
def pollHeaders (u : Nat → CCResult) (i : Nat) :
    List WAVEHDR → CCResult × Nat × List WAVEHDR
  | [] => (.ok, 0, [])
  | h :: t =>
    if ¬ h.done then
      let (r, c, t') := pollHeaders u (i + 1) t
      (r, c + 1, h :: t')
    else if h.prepared then
      if u i ≠ .ok then (u i, 0, h :: t)
      else
        let (r, c, t') := pollHeaders u (i + 1) t
        (r, c, { h with prepared := false } :: t')
    else
      let (r, c, t') := pollHeaders u (i + 1) t
      (r, c, h :: t')

/-- `Audio_Poll` (WinMM): scans the `count` headers, counting those still
in flight and unpreparing finished ones; returns `(res, *inUse, ctx)`. -/
def Audio_Poll (u : Nat → CCResult) (ctx : AudioContext) :
    CCResult × Nat × AudioContext :=
  let (r, c, hs) := pollHeaders u 0 ctx.headers
  (r, c, { ctx with headers := hs })

/-- Device-level actions of the WinMM `Audio_SetFormat`. -/
inductive DevEv where
  | reset
  | openDev
deriving DecidableEq, Repr

/-- `Audio_SetFormat` (WinMM).  The effective rate is
`Audio_AdjustSampleRate(sampleRate, playbackRate)`; if both the channel
count and the effective rate match the current configuration the call
returns 0 immediately (no reset, no reopen).  Otherwise the stored format
is updated, the existing handle is closed (`Audio_Reset`, `closeRes`
oracle) and `waveOutOpen` is called (`openRes` oracle); a
`MMSYSERR_BADDEVICEID` with zero output devices (`numDevs`) is rewritten
to `ERR_NO_AUDIO_OUTPUT`. -/
def Audio_SetFormat (closeRes openRes : CCResult) (numDevs : Nat)
    (ctx : AudioContext) (channels : Nat) (sampleRateIn playbackRate : Int) :
    CCResult × AudioContext × List DevEv :=
  let sampleRate := Audio_AdjustSampleRate sampleRateIn playbackRate
  if ctx.channels = channels ∧ ctx.sampleRate = sampleRate then (.ok, ctx, [])
  else
    let ctx := { ctx with channels := channels, sampleRate := sampleRate }
    let reset : CCResult × AudioContext × List DevEv :=
      if ctx.handleOpen then (closeRes, { ctx with handleOpen := false }, [.reset])
      else (.ok, ctx, [])
    let (rres, ctx, evs) := reset
    if rres ≠ .ok then (rres, ctx, evs)
    else
      let ctx := if openRes = .ok then { ctx with handleOpen := true } else ctx
      if openRes = .badDeviceID ∧ numDevs = 0 then (.noAudioOutput, ctx, evs ++ [.openDev])
      else (openRes, ctx, evs ++ [.openDev])

end WinMM

namespace OpenSL

/-- OpenSL ES backend `struct AudioContext` (the player object/interface
handles are driver handles; only the configuration fields drive the
control flow modelled here). -/
structure AudioContext where
  count : Nat
  volume : Nat
  channels : Nat
  sampleRate : Int
deriving DecidableEq, Repr

/-- Device-level action of the OpenSL `Audio_SetFormat`:
`RecreatePlayer` destroys and recreates the audio player. -/
inductive SLEv where
  | recreate
deriving DecidableEq, Repr

/-- `Audio_SetFormat` (OpenSL ES).  If either the channel count or the
(raw) sample rate differs from the stored configuration,
`RecreatePlayer` stores the new values, destroys the existing player and
creates a new one (`recreateRes` oracle); any failure is returned.
Afterwards the playback rate is applied with `SetRate(playbackRate * 10)`
(`setRateRes` oracle), whose result is returned. -/
def Audio_SetFormat (recreateRes setRateRes : CCResult)
    (ctx : AudioContext) (channels : Nat) (sampleRate playbackRate : Int) :
    CCResult × AudioContext × List SLEv :=
  let _ := playbackRate
  if ctx.channels ≠ channels ∨ ctx.sampleRate ≠ sampleRate then
    let ctx := { ctx with channels := channels, sampleRate := sampleRate }
    if recreateRes ≠ .ok then (recreateRes, ctx, [.recreate])
    else (setRateRes, ctx, [.recreate])
  else (setRateRes, ctx, [])

end OpenSL

namespace AudioBase

/-- `AudioBase_AllocChunks` (common backend code): one
`Mem_TryAlloc(numChunks, size)` allocation of `numChunks * size` bytes;
`chunks[i] = dst + size * i`.  `alloc n` is the allocator oracle
(`none` = allocation of `n` bytes failed, `some dst` = base address).
Returns the result code, the chunk addresses, and the number of bytes
requested from the allocator. -/
def AudioBase_AllocChunks (alloc : Nat → Option Nat) (size numChunks : Nat) :
    CCResult × List Nat × Nat :=
  match alloc (numChunks * size) with
  | none => (.oom, [], numChunks * size)
  | some dst => (.ok, (List.range numChunks).map (fun i => dst + size * i), numChunks * size)

/-- `AudioBase_FreeChunks`: frees the single underlying allocation via
its first pointer (`Mem_Free(chunks[0])`); returns the freed address. -/
def AudioBase_FreeChunks (chunks : List Nat) : Nat :=
  chunks.headD 0

end AudioBase

namespace GCWii

/-- `size = (size + 0x1F) & ~0x1F` — round up to the next multiple of 32
(for a natural number, masking off the low five bits of `size + 31` is
`(size + 31) / 32 * 32`). -/
def roundUp32 (size : Nat) : Nat := (size + 0x1F) / 0x20 * 0x20

/-- `Audio_AllocChunks` (GC/Wii backend): rounds `size` up to a multiple
of 32, then calls `memalign(0x20, size)` — note the request is `size`
bytes, not `size * numChunks` — and hands out `numChunks` pointers spaced
the rounded `size` apart.  Returns the result code, the chunk addresses,
and the number of bytes requested from `memalign`. -/
def Audio_AllocChunks (alloc : Nat → Option Nat) (size numChunks : Nat) :
    CCResult × List Nat × Nat :=
  let size := roundUp32 size
  match alloc size with
  | none => (.oom, [], size)
  | some dst => (.ok, (List.range numChunks).map (fun i => dst + size * i), size)

/-- `Audio_FreeChunks` (GC/Wii): `free(chunks[0])`. -/
def Audio_FreeChunks (chunks : List Nat) : Nat :=
  chunks.headD 0

end GCWii

namespace Pool

/-- `struct AudioData`: the caller's play request (the PCM pointer itself
is irrelevant to the pool's control flow). -/
structure AudioData where
  channels : Nat
  sampleRate : Int
  rate : Int
  volume : Nat
  size : Nat
deriving DecidableEq, Repr

/-- The per-backend operations the pool code calls, as a record: exactly
one backend is compiled in, so `AudioPool_Play` is generic over these.
`dflt` is only used to read `pool[i]` in the model (the C pool array
always has 8 elements). -/
structure Backend (Ctx : Type) where
  dflt : Ctx
  getCount : Ctx → Nat
  init : Ctx → Nat → CCResult × Ctx
  poll : Ctx → CCResult × Nat × Ctx
  fastPlay : Ctx → AudioData → Bool
  setVolume : Ctx → Nat → Ctx
  setFormat : Ctx → Nat → Int → Int → CCResult × Ctx
  queueChunk : Ctx → Nat → CCResult × Ctx
  play : Ctx → CCResult × Ctx

/-- Calls `AudioPool_Play` makes on pooled context `i`. -/
inductive PoolEv where
  | init (i : Nat)
  | poll (i : Nat)
  | setVolume (i : Nat)
  | setFormat (i : Nat)
  | queueChunk (i : Nat)
  | play (i : Nat)
deriving DecidableEq, Repr

/-- The pool slot an event touches. -/
def PoolEv.idx : PoolEv → Nat
  | .init i => i
  | .poll i => i
  | .setVolume i => i
  | .setFormat i => i
  | .queueChunk i => i
  | .play i => i

/-- Whether an event merely scans a context (lazy `Audio_Init` or
`Audio_Poll`) rather than playing sound on it. -/
def PoolEv.isScan : PoolEv → Bool
  | .init _ => true
  | .poll _ => true
  | _ => false

/-- `PlayAudio`: sets the volume, the format, queues the chunk and starts
playback, propagating the first failure. -/
def PlayAudio {Ctx : Type} (b : Backend Ctx) (i : Nat) (ctx : Ctx) (d : AudioData) :
    CCResult × Ctx × List PoolEv :=
  let ctx := b.setVolume ctx d.volume
  let (r, ctx) := b.setFormat ctx d.channels d.sampleRate d.rate
  if r ≠ .ok then (r, ctx, [.setVolume i, .setFormat i])
  else
    let (r, ctx) := b.queueChunk ctx d.size
    if r ≠ .ok then (r, ctx, [.setVolume i, .setFormat i, .queueChunk i])
    else
      let (r, ctx) := b.play ctx
      (r, ctx, [.setVolume i, .setFormat i, .queueChunk i, .play i])

/-- Outcome of one selection pass: an early `return` with a result code,
or falling through the loop. -/
inductive PassOut (Ctx : Type) where
  | result (res : CCResult) (pool : List Ctx) (tr : List PoolEv)
  | fellThrough (pool : List Ctx) (tr : List PoolEv)

/-- Pass 1 of `AudioPool_Play` over the given slot indices: lazily
`Audio_Init`s a context with `count == 0` (returning on failure), then
`Audio_Poll`s it (returning on failure), skips it if busy or if
`Audio_FastPlay` rejects the request, and otherwise plays on it. -/
def pass1 {Ctx : Type} (b : Backend Ctx) (d : AudioData) :
    List Nat → List Ctx → List PoolEv → PassOut Ctx
  | [], pool, tr => .fellThrough pool tr
  | i :: rest, pool, tr =>
    let ctx := pool.getD i b.dflt
    let initStep : CCResult × Ctx × List PoolEv :=
      if b.getCount ctx = 0 then
        let (r, c) := b.init ctx 1
        (r, c, tr ++ [.init i])
      else (.ok, ctx, tr)
    let (ir, ctx, tr) := initStep
    let pool := pool.set i ctx
    if ir ≠ .ok then .result ir pool tr
    else
      let (pr, inUse, ctx) := b.poll ctx
      let pool := pool.set i ctx
      let tr := tr ++ [.poll i]
      if pr ≠ .ok then .result pr pool tr
      else if 0 < inUse then pass1 b d rest pool tr
      else if ¬ b.fastPlay ctx d then pass1 b d rest pool tr
      else
        let (r, ctx, evs) := PlayAudio b i ctx d
        .result r (pool.set i ctx) (tr ++ evs)

/-- Pass 2 of `AudioPool_Play`: same scan without the lazy init and
without the `Audio_FastPlay` constraint. -/
def pass2 {Ctx : Type} (b : Backend Ctx) (d : AudioData) :
    List Nat → List Ctx → List PoolEv → PassOut Ctx
  | [], pool, tr => .fellThrough pool tr
  | i :: rest, pool, tr =>
    let ctx := pool.getD i b.dflt
    let (pr, inUse, ctx) := b.poll ctx
    let pool := pool.set i ctx
    let tr := tr ++ [.poll i]
    if pr ≠ .ok then .result pr pool tr
    else if 0 < inUse then pass2 b d rest pool tr
    else
      let (r, ctx, evs) := PlayAudio b i ctx d
      .result r (pool.set i ctx) (tr ++ evs)

/-- `#define POOL_MAX_CONTEXTS 8` -/
def POOL_MAX_CONTEXTS : Nat := 8

/-- `AudioPool_Play`: pass 1 over the 8 pooled contexts, then pass 2;
if neither pass returned, the sound is dropped and 0 (success) is
returned.  The trace records every backend call made, in order. -/
def AudioPool_Play {Ctx : Type} (b : Backend Ctx) (pool : List Ctx) (d : AudioData) :
    CCResult × List Ctx × List PoolEv :=
  match pass1 b d (List.range POOL_MAX_CONTEXTS) pool [] with
  | .result r p tr => (r, p, tr)
  | .fellThrough p tr =>
    match pass2 b d (List.range POOL_MAX_CONTEXTS) p tr with
    | .result r p tr => (r, p, tr)
    | .fellThrough p tr => (.ok, p, tr)

end Pool

namespace Pool

/-- A pooled context that pass 1 skips over: it is already initialized
(`count != 0`) and `Audio_Poll` succeeds but reports it busy. -/
def Skips {Ctx : Type} (b : Backend Ctx) (c : Ctx) : Prop :=
  b.getCount c ≠ 0 ∧ (b.poll c).1 = .ok ∧ 0 < (b.poll c).2.1

/-- The context pass 1 polls at a slot: the slot's context, after the
lazy `Audio_Init(ctx, 1)` if its `count` was 0. -/
def lazyInit {Ctx : Type} (b : Backend Ctx) (c : Ctx) : Ctx :=
  if b.getCount c = 0 then (b.init c 1).2 else c

/-- Test backend whose poll always reports one buffer in use
(used to instantiate the pool theorems on concrete inputs). -/
def busyBackend : Backend Unit where
  dflt := ()
  getCount _ := 1
  init _ _ := (.ok, ())
  poll _ := (.ok, 1, ())
  fastPlay _ _ := true
  setVolume _ _ := ()
  setFormat _ _ _ _ := (.ok, ())
  queueChunk _ _ := (.ok, ())
  play _ := (.ok, ())

/-- Test backend whose contexts are uninitialized and whose
`Audio_Init` fails (used to instantiate the pool theorems on concrete
inputs). -/
def initFailBackend : Backend Unit where
  dflt := ()
  getCount _ := 0
  init _ _ := (.err 5, ())
  poll _ := (.ok, 1, ())
  fastPlay _ _ := true
  setVolume _ _ := ()
  setFormat _ _ _ _ := (.ok, ())
  queueChunk _ _ := (.ok, ())
  play _ := (.ok, ())

end Pool

/-- Invariant of an initialized OpenAL context and its driver-side
source state: the source exists, `count` is the capacity passed to
`Audio_Init`, the free stack's length agrees with `ctx->free`, and free,
driver-pending and driver-processed buffers together never exceed the
capacity (an AL error in `QueueChunk` can leak a buffer, hence `≤`). -/
def OpenAL.Inv (n : Nat) (s : OpenAL.ALState) : Prop :=
  s.ctx.source = 1 ∧ s.ctx.count = n ∧ s.ctx.freeIDs.length = s.ctx.free ∧
  s.ctx.free + s.src.pending.length + s.src.processed.length ≤ n

theorem ApplyVolume_eq_map (samples : List Int) (volume : Int) :
    ApplyVolume samples volume = samples.map fun s => (s * volume).tdiv 100 := by
  induction samples, volume using ApplyVolume.induct with
  | case1 s0 s1 s2 s3 s4 s5 s6 s7 rest volume ih =>
    simp [ApplyVolume, ih]
  | case2 rest volume h =>
    simp [ApplyVolume]

theorem scaled_sample_bounds (s v : Int)
    (hs1 : -32768 ≤ s) (hs2 : s ≤ 32767) (hv1 : 0 ≤ v) (hv2 : v ≤ 100) :
    -32768 ≤ (s * v).tdiv 100 ∧ (s * v).tdiv 100 ≤ 32767 := by
  rcases le_or_lt 0 s with h | h
  · have hsv : 0 ≤ s * v := mul_nonneg h hv1
    have h1 : s * v ≤ 32767 * 100 := mul_le_mul hs2 hv2 hv1 (by norm_num)
    rw [Int.tdiv_eq_ediv hsv (by norm_num)]
    refine ⟨le_trans (by norm_num) (Int.ediv_nonneg hsv (by norm_num)), ?_⟩
    have h2 := Int.ediv_le_ediv (by norm_num : (0:Int) < 100) h1
    omega
  · have hneg : (-32768) * 100 ≤ s * v := by
      have hb : (-32768) * v ≤ s * v := mul_le_mul_of_nonneg_right hs1 hv1
      nlinarith
    have hsv : s * v ≤ 0 := by
      have := mul_le_mul_of_nonneg_right h.le hv1
      simpa using this
    have hrw : (s * v).tdiv 100 = -((-(s * v)).tdiv 100) := by
      rw [Int.neg_tdiv, neg_neg]
    have hnn : 0 ≤ -(s * v) := by omega
    have hle : -(s * v) ≤ 32768 * 100 := by omega
    rw [hrw, Int.tdiv_eq_ediv hnn (by norm_num)]
    have h2 := Int.ediv_le_ediv (by norm_num : (0:Int) < 100) hle
    have h3 := Int.ediv_nonneg hnn (by norm_num : (0:Int) ≤ 100)
    omega

theorem AudioBase_AdjustSound_ok_fields {a d : Bool}
    {ctx ctx' : WinMM.AudioContext} {samples out : List Int}
    (h : WinMM.AudioBase_AdjustSound a d ctx samples = .ok ctx' out) :
    ctx'.handleOpen = ctx.handleOpen ∧ ctx'.headers = ctx.headers ∧
    ctx'.count = ctx.count ∧ ctx'.channels = ctx.channels ∧
    ctx'.sampleRate = ctx.sampleRate ∧ ctx'.volume = ctx.volume := by
  have hcases : ctx' = ctx ∨
      ctx' = { ctx with tmpSize := 2 * samples.length, tmpData := a } := by
    unfold WinMM.AudioBase_AdjustSound at h
    dsimp only at h
    repeat' split at h
    all_goals simp only [WinMM.AdjustResult.ok.injEq, reduceCtorEq] at h
    all_goals obtain ⟨h1, h2⟩ := h
    all_goals subst h1
    all_goals simp
  rcases hcases with rfl | rfl <;> simp

/-- C8: `Audio_SetFormat` computes the effective sample rate as
`sampleRate * playbackRate / 100` in (truncating) integer arithmetic —
for every context and every rate pair, the stored rate equals
`(sampleRate * playbackRate) / 100`; in particular, for channels = 2,
sampleRate = 22050, playbackRate = 150 the call succeeds, stores exactly
33075, and selects `AL_FORMAT_STEREO16`. -/
theorem claim_C8_effective_sample_rate :
    (∀ (ctx : OpenAL.AudioContext) (channels : Nat) (sr pr : Int),
        ((OpenAL.Audio_SetFormat ctx channels sr pr).2).sampleRate = (sr * pr).tdiv 100) ∧
    (∀ ctx : OpenAL.AudioContext,
        (OpenAL.Audio_SetFormat ctx 2 22050 150).1 = .ok ∧
        ((OpenAL.Audio_SetFormat ctx 2 22050 150).2).sampleRate = 33075 ∧
        ((OpenAL.Audio_SetFormat ctx 2 22050 150).2).format = OpenAL.AL_FORMAT_STEREO16) := by
  constructor
  · intro ctx channels sr pr
    unfold OpenAL.Audio_SetFormat Audio_AdjustSampleRate
    split
    · rfl
    · split <;> rfl
  · intro ctx
    refine ⟨rfl, ?_, rfl⟩
    show Audio_AdjustSampleRate 22050 150 = 33075
    decide

/-- C4: when the scratch-buffer allocation fails during software volume
adjustment (volume < 100, allocator returns NULL), the code does NOT
report out-of-memory: the error branch tests the wrong variable (the
always-non-NULL `data` parameter instead of the allocation result), so
`AudioBase_AdjustSound` falls through to `Mem_Copy` with a NULL
destination — a NULL dereference, not an `ERR_OUT_OF_MEMORY` return.
Evaluated at a concrete failing input: volume 50, empty scratch buffer,
a 4-byte chunk, failing allocator. -/
theorem claim_C4_null_alloc_dereferences_null :
    WinMM.AudioBase_AdjustSound false false
        ⟨true, [⟨true, false⟩], 1, 1, 22050, 50, 0, false⟩ [7, 7] =
      .nullDeref ∧
    decide (WinMM.AudioBase_AdjustSound false false
        ⟨true, [⟨true, false⟩], 1, 1, 22050, 50, 0, false⟩ [7, 7] =
      .failed) = false := by
  decide

/-- C3: a single `Audio_Poll` (OpenAL) does NOT reclaim every buffer the
driver has finished: with 2 buffers queued and both finished by the
driver (`AL_BUFFERS_PROCESSED` = 2), one `Audio_Poll` unqueues exactly
one buffer, leaving one finished buffer unreclaimed and reporting 1 slot
still in use instead of 0.  (The claim's other half does hold: polling
with no source created returns 0 in use — final conjunct.) -/
theorem claim_C3_poll_reclaims_only_one :
    (OpenAL.runAL (OpenAL.initial 2)
        [.queue none none, .queue none none, .finish 2]).src.processed.length = 2 ∧
    OpenAL.Audio_Poll
        (OpenAL.runAL (OpenAL.initial 2)
          [.queue none none, .queue none none, .finish 2]).ctx
        (OpenAL.runAL (OpenAL.initial 2)
          [.queue none none, .queue none none, .finish 2]).src =
      (.ok, 1, ⟨1, 2, 1, [2], 0, 0⟩, ⟨[], [1]⟩) ∧
    OpenAL.Audio_Poll ⟨0, 4, 0, [], 0, 0⟩ ⟨[], []⟩ =
      (.ok, 0, ⟨0, 4, 0, [], 0, 0⟩, ⟨[], []⟩) := by
  refine ⟨by decide, by decide, by decide⟩

/-- C9: the GC/Wii `Audio_AllocChunks` does NOT place all `count`
pointers inside one allocation large enough for all `count` buffers: for
size = 100, count = 4 it requests only 128 bytes (one rounded chunk, not
4 * 128) from `memalign`, yet hands out pointers 0, 128, 256, 384 — the
last three lie at or beyond the 128-byte allocation.  The common
`AudioBase_AllocChunks` (final conjunct) does allocate
`numChunks * size` = 400 bytes, with the 4 pointers `size` apart inside
it, and both fail with `ERR_OUT_OF_MEMORY` when the allocator fails. -/
theorem claim_C9_gcwii_allocation_too_small :
    GCWii.Audio_AllocChunks (fun _ => some 0) 100 4 = (.ok, [0, 128, 256, 384], 128) ∧
    GCWii.Audio_AllocChunks (fun _ => none) 100 4 = (.oom, [], 128) ∧
    AudioBase.AudioBase_AllocChunks (fun _ => some 0) 100 4 =
      (.ok, [0, 100, 200, 300], 400) ∧
    AudioBase.AudioBase_AllocChunks (fun _ => none) 100 4 = (.oom, [], 400) := by
  decide

/-- C1 as stated is false on the WinMM backend: `Audio_QueueChunk` with
zero free slots (no header `WHDR_DONE`) does return
`ERR_INVALID_ARGUMENT`, but the scratch-buffer fields are NOT left
unchanged — with volume 50 and an empty scratch buffer, queueing a
4-byte chunk grows `_tmpSize` from 0 to 4 and allocates `_tmpData`
before the free-slot scan fails. -/
theorem claim_C1_counterexample :
    WinMM.Audio_QueueChunk true false .ok .ok
        ⟨true, [⟨false, false⟩], 1, 1, 22050, 50, 0, false⟩ [7, 7] =
      .ret .invalidArg ⟨true, [⟨false, false⟩], 1, 1, 22050, 50, 4, true⟩ ∧
    decide ((⟨true, [⟨false, false⟩], 1, 1, 22050, 50, 4, true⟩ : WinMM.AudioContext) =
      ⟨true, [⟨false, false⟩], 1, 1, 22050, 50, 0, false⟩) = false := by
  decide

/-- C1 (amended): `Audio_QueueChunk` with zero free buffer slots always
fails with `ERR_INVALID_ARGUMENT`; the free count and slot states are
unchanged, and on OpenAL the whole context state is unchanged, but on
WinMM the software-volume scratch-buffer fields may be updated by the
`AudioBase_AdjustSound` step that runs before the free-slot check.
First conjunct: OpenAL, any chunk, any AL error oracles, `free == 0` —
context and driver state returned untouched.  Second conjunct: WinMM,
every header in flight and the volume-adjust step succeeding — result is
`ERR_INVALID_ARGUMENT` and the returned context agrees with the original
on everything except possibly `_tmpData`/`_tmpSize`. -/
theorem claim_C1_queue_full_invalid_argument :
    (∀ (bufErr queueErr : Option CCResult) (ctx : OpenAL.AudioContext)
        (src : OpenAL.SourceState),
        ctx.free = 0 →
        OpenAL.Audio_QueueChunk bufErr queueErr ctx src = (.invalidArg, ctx, src)) ∧
    (∀ (allocOk : Bool) (prepRes writeRes : CCResult)
        (ctx ctx' : WinMM.AudioContext) (samples out : List Int),
        (∀ h ∈ ctx.headers, h.done = false) →
        WinMM.AudioBase_AdjustSound allocOk false ctx samples = .ok ctx' out →
        WinMM.Audio_QueueChunk allocOk false prepRes writeRes ctx samples =
          .ret .invalidArg ctx' ∧
        ctx'.headers = ctx.headers ∧ ctx'.count = ctx.count ∧
        ctx'.channels = ctx.channels ∧ ctx'.sampleRate = ctx.sampleRate ∧
        ctx'.volume = ctx.volume ∧ ctx'.handleOpen = ctx.handleOpen) := by
  constructor
  · intro bufErr queueErr ctx src h
    unfold OpenAL.Audio_QueueChunk
    rw [if_pos h]
  · intro allocOk prepRes writeRes ctx ctx' samples out hdrs hadj
    obtain ⟨hho, hhd, hct, hch, hsr, hvol⟩ := AudioBase_AdjustSound_ok_fields hadj
    have hfind : ctx'.headers.findIdx? (fun h => h.done) = none := by
      rw [List.findIdx?_eq_none_iff]
      intro x hx
      rw [hhd] at hx
      exact hdrs x hx
    refine ⟨?_, hhd, hct, hch, hsr, hvol, hho⟩
    unfold WinMM.Audio_QueueChunk
    rw [hadj]
    dsimp only
    rw [hfind]

/-- Witness for the C1 theorem: both conjuncts applied at concrete
inputs — an OpenAL context with `free = 0`, and a WinMM context at
volume 100 (where the adjust step succeeds without copying) whose single
header is in flight. -/
theorem claim_C1_queue_full_invalid_argument_witness :
    OpenAL.Audio_QueueChunk none none ⟨1, 1, 0, [], 0, 0⟩ ⟨[5], []⟩ =
      (.invalidArg, ⟨1, 1, 0, [], 0, 0⟩, ⟨[5], []⟩) ∧
    WinMM.Audio_QueueChunk true false .ok .ok
        ⟨true, [⟨false, true⟩], 1, 1, 22050, 100, 0, false⟩ [7, 7] =
      .ret .invalidArg ⟨true, [⟨false, true⟩], 1, 1, 22050, 100, 0, false⟩ := by
  constructor
  · exact claim_C1_queue_full_invalid_argument.1 none none _ _ (by decide)
  · exact (claim_C1_queue_full_invalid_argument.2 true .ok .ok
      ⟨true, [⟨false, true⟩], 1, 1, 22050, 100, 0, false⟩
      ⟨true, [⟨false, true⟩], 1, 1, 22050, 100, 0, false⟩
      [7, 7] [7, 7] (by decide) (by decide)).1

/-- C5: software volume scaling.  (1) At volume ≥ 100,
`AudioBase_AdjustSound` returns the caller's buffer unmodified with no
copy and no context change.  (2) At volume 0 every output sample is 0.
(3) Every output sample is `sample * volume / 100` in truncating integer
arithmetic.  (4) For 16-bit inputs and volume in [0, 100] every output
fits in an int16 with no clamping needed. -/
theorem claim_C5_software_volume_scaling :
    (∀ (allocOk dataParamNull : Bool) (ctx : WinMM.AudioContext)
        (samples : List Int),
        100 ≤ ctx.volume →
        WinMM.AudioBase_AdjustSound allocOk dataParamNull ctx samples =
          .ok ctx samples) ∧
    (∀ samples : List Int, ApplyVolume samples 0 = samples.map fun _ => 0) ∧
    (∀ (samples : List Int) (v : Int),
        ApplyVolume samples v = samples.map fun s => (s * v).tdiv 100) ∧
    (∀ (samples : List Int) (v : Int), 0 ≤ v → v ≤ 100 →
        (∀ s ∈ samples, -32768 ≤ s ∧ s ≤ 32767) →
        ∀ x ∈ ApplyVolume samples v, -32768 ≤ x ∧ x ≤ 32767) := by
  refine ⟨?_, ?_, ApplyVolume_eq_map, ?_⟩
  · intro allocOk dataParamNull ctx samples h
    unfold WinMM.AudioBase_AdjustSound
    rw [if_pos h]
  · intro samples
    rw [ApplyVolume_eq_map]
    simp
  · intro samples v hv1 hv2 hin x hx
    rw [ApplyVolume_eq_map] at hx
    obtain ⟨s, hs, rfl⟩ := List.mem_map.mp hx
    exact scaled_sample_bounds s v (hin s hs).1 (hin s hs).2 hv1 hv2

/-- Witness for the C5 theorem: each conjunct applied at a concrete
input — a volume-100 context with a 1-sample chunk, the zero-volume and
general scaling laws on `[-32768, 32767, 250]`, and the int16 bound on
the same list at volume 99. -/
theorem claim_C5_software_volume_scaling_witness :
    WinMM.AudioBase_AdjustSound true false
        ⟨true, [⟨true, false⟩], 1, 2, 44100, 100, 0, false⟩ [123] =
      .ok ⟨true, [⟨true, false⟩], 1, 2, 44100, 100, 0, false⟩ [123] ∧
    ApplyVolume [-32768, 32767, 250] 0 = [0, 0, 0] ∧
    ApplyVolume [-32768, 32767, 250] 99 =
      [-32768, 32767, 250].map (fun s => (s * 99).tdiv 100) ∧
    ((ApplyVolume [-32768, 32767, 250] 99).all
      (fun x => decide (-32768 ≤ x) && decide (x ≤ 32767))) = true := by
  refine ⟨?_, ?_, ?_, ?_⟩
  · exact claim_C5_software_volume_scaling.1 true false _ [123] (by decide)
  · exact claim_C5_software_volume_scaling.2.1 [-32768, 32767, 250]
  · exact claim_C5_software_volume_scaling.2.2.1 [-32768, 32767, 250] 99
  · refine List.all_eq_true.mpr ?_
    intro x hx
    obtain ⟨h1, h2⟩ := claim_C5_software_volume_scaling.2.2.2 [-32768, 32767, 250] 99
      (by decide) (by decide) (by decide) x hx
    simp [h1, h2]

theorem Audio_SetFormat_win_stores (closeRes openRes : CCResult) (numDevs : Nat)
    (ctx : WinMM.AudioContext) (ch : Nat) (sr pr : Int) :
    ((WinMM.Audio_SetFormat closeRes openRes numDevs ctx ch sr pr).2.1).channels = ch ∧
    ((WinMM.Audio_SetFormat closeRes openRes numDevs ctx ch sr pr).2.1).sampleRate =
      Audio_AdjustSampleRate sr pr := by
  unfold WinMM.Audio_SetFormat
  dsimp only
  split
  · next hfast => exact ⟨hfast.1, hfast.2⟩
  · repeat' split
    all_goals simp

/-- C7: `Audio_SetFormat` with channels, sample rate and playback rate
identical to the currently configured values performs no device teardown
or recreation and returns success, on the backends that recreate on
change.  First conjunct: WinMM, matching stored format — result 0, no
`waveOutClose`/`waveOutOpen` (empty device-event list), context
untouched.  Second conjunct: repeating any WinMM `SetFormat` call with
the same arguments is a device-untouched no-op.  Third conjunct:
OpenSL ES, matching stored channels/sample rate — no `RecreatePlayer`,
and success provided the (always-executed) `SetRate` call succeeds. -/
theorem claim_C7_setformat_idempotent :
    (∀ (closeRes openRes : CCResult) (numDevs : Nat) (ctx : WinMM.AudioContext)
        (ch : Nat) (sr pr : Int),
        ctx.channels = ch → ctx.sampleRate = Audio_AdjustSampleRate sr pr →
        WinMM.Audio_SetFormat closeRes openRes numDevs ctx ch sr pr = (.ok, ctx, [])) ∧
    (∀ (cr1 or1 cr2 or2 : CCResult) (nd1 nd2 : Nat) (ctx : WinMM.AudioContext)
        (ch : Nat) (sr pr : Int),
        WinMM.Audio_SetFormat cr2 or2 nd2
            (WinMM.Audio_SetFormat cr1 or1 nd1 ctx ch sr pr).2.1 ch sr pr =
          (.ok, (WinMM.Audio_SetFormat cr1 or1 nd1 ctx ch sr pr).2.1, [])) ∧
    (∀ (recreateRes setRateRes : CCResult) (ctx : OpenSL.AudioContext)
        (ch : Nat) (sr pr : Int),
        ctx.channels = ch → ctx.sampleRate = sr → setRateRes = .ok →
        OpenSL.Audio_SetFormat recreateRes setRateRes ctx ch sr pr = (.ok, ctx, [])) := by
  have base : ∀ (closeRes openRes : CCResult) (numDevs : Nat)
      (ctx : WinMM.AudioContext) (ch : Nat) (sr pr : Int),
      ctx.channels = ch → ctx.sampleRate = Audio_AdjustSampleRate sr pr →
      WinMM.Audio_SetFormat closeRes openRes numDevs ctx ch sr pr = (.ok, ctx, []) := by
    intro closeRes openRes numDevs ctx ch sr pr h1 h2
    unfold WinMM.Audio_SetFormat
    rw [if_pos ⟨h1, h2⟩]
  refine ⟨base, ?_, ?_⟩
  · intro cr1 or1 cr2 or2 nd1 nd2 ctx ch sr pr
    obtain ⟨h1, h2⟩ := Audio_SetFormat_win_stores cr1 or1 nd1 ctx ch sr pr
    exact base cr2 or2 nd2 _ ch sr pr h1 h2
  · intro recreateRes setRateRes ctx ch sr pr h1 h2 h3
    subst h3
    unfold OpenSL.Audio_SetFormat
    rw [if_neg (by push_neg; exact ⟨h1, h2⟩)]

/-- Witness for the C7 theorem: WinMM context configured for stereo at
effective rate 33075 re-asked for (2, 22050, 150); the same call
repeated after a first `SetFormat` on a fresh context; and an OpenSL
context already at (2, 22050). -/
theorem claim_C7_setformat_idempotent_witness :
    WinMM.Audio_SetFormat .ok .ok 1
        ⟨true, [⟨true, false⟩], 1, 2, 33075, 100, 0, false⟩ 2 22050 150 =
      (.ok, ⟨true, [⟨true, false⟩], 1, 2, 33075, 100, 0, false⟩, []) ∧
    WinMM.Audio_SetFormat .ok .ok 1
        (WinMM.Audio_SetFormat .ok .ok 1
          ⟨false, [], 0, 0, 0, 100, 0, false⟩ 2 22050 150).2.1 2 22050 150 =
      (.ok, (WinMM.Audio_SetFormat .ok .ok 1
          ⟨false, [], 0, 0, 0, 100, 0, false⟩ 2 22050 150).2.1, []) ∧
    OpenSL.Audio_SetFormat .ok .ok ⟨1, 100, 2, 22050⟩ 2 22050 150 =
      (.ok, ⟨1, 100, 2, 22050⟩, []) := by
  refine ⟨?_, ?_, ?_⟩
  · exact claim_C7_setformat_idempotent.1 .ok .ok 1 _ 2 22050 150 (by decide) (by decide)
  · exact claim_C7_setformat_idempotent.2.1 .ok .ok .ok .ok 1 1 _ 2 22050 150
  · exact claim_C7_setformat_idempotent.2.2 .ok .ok _ 2 22050 150 rfl rfl rfl

theorem OpenAL_inv_initial (n : Nat) : OpenAL.Inv n (OpenAL.initial n) := by
  simp [OpenAL.initial, OpenAL.Audio_Init, OpenAL.Inv]

theorem OpenAL_inv_step {n : Nat} {s : OpenAL.ALState} (h : OpenAL.Inv n s)
    (op : OpenAL.ALOp) : OpenAL.Inv n (OpenAL.stepAL s op) := by
  obtain ⟨h1, h2, h3, h4⟩ := h
  cases op with
  | queue be qe =>
    unfold OpenAL.stepAL OpenAL.Audio_QueueChunk
    dsimp only
    by_cases hf : s.ctx.free = 0
    · rw [if_pos hf]
      exact ⟨h1, h2, h3, h4⟩
    · rw [if_neg hf]
      cases be with
      | some e =>
        refine ⟨h1, h2, ?_, ?_⟩ <;> simp [List.length_tail, h3] <;> omega
      | none =>
        cases qe with
        | some e =>
          refine ⟨h1, h2, ?_, ?_⟩ <;> simp [List.length_tail, h3] <;> omega
        | none =>
          refine ⟨h1, h2, ?_, ?_⟩ <;> simp [List.length_tail, h3] <;> omega
  | poll =>
    unfold OpenAL.stepAL OpenAL.Audio_Poll
    dsimp only
    rw [if_neg (by rw [h1]; exact one_ne_zero)]
    by_cases hp : 0 < s.src.processed.length
    · rw [if_pos hp]
      refine ⟨h1, h2, ?_, ?_⟩ <;> simp [List.length_tail, h3] <;> omega
    · rw [if_neg hp]
      exact ⟨h1, h2, h3, h4⟩
  | finish k =>
    unfold OpenAL.stepAL OpenAL.sourceFinish
    refine ⟨h1, h2, h3, ?_⟩
    simp only [List.length_drop, List.length_append, List.length_take]
    omega

theorem OpenAL_inv_run {n : Nat} (s : OpenAL.ALState) (h : OpenAL.Inv n s)
    (ops : List OpenAL.ALOp) : OpenAL.Inv n (OpenAL.runAL s ops) := by
  induction ops generalizing s with
  | nil => exact h
  | cons op ops ih =>
    rw [OpenAL.runAL, List.foldl_cons]
    exact ih _ (OpenAL_inv_step ⟨h.1, h.2.1, h.2.2.1, h.2.2.2⟩ op)

theorem pollHeaders_ok (hs : List WinMM.WAVEHDR) (i : Nat) :
    (WinMM.pollHeaders (fun _ => .ok) i hs).1 = .ok ∧
    (WinMM.pollHeaders (fun _ => .ok) i hs).2.1 =
      hs.countP (fun h => !h.done) ∧
    ((WinMM.pollHeaders (fun _ => .ok) i hs).2.2).countP (fun h => h.done) =
      hs.countP (fun h => h.done) := by
  induction hs generalizing i with
  | nil => simp [WinMM.pollHeaders]
  | cons h t ih =>
    obtain ⟨ih1, ih2, ih3⟩ := ih (i + 1)
    by_cases hd : h.done
    · by_cases hp : h.prepared
      · simp [WinMM.pollHeaders, hd, hp, List.countP_cons, ih1, ih2, ih3]
      · simp [WinMM.pollHeaders, hd, hp, List.countP_cons, ih1, ih2, ih3]
    · simp [WinMM.pollHeaders, hd, List.countP_cons, ih1, ih2, ih3]

/-- C2: for every initialized audio context and every sequence of
QueueChunk/Poll/driver-completion operations, the inUse count reported
by `Audio_Poll` satisfies `free + inUse == capacity`.  First conjunct:
OpenAL — starting from `Audio_Init(ctx, n)`, after any operation
sequence a `Audio_Poll` succeeds and its reported in-use count plus the
resulting free count equals the capacity `n`.  Second conjunct: WinMM —
`Audio_Poll` (with the unprepare calls succeeding) reports
`count of WHDR_DONE headers + inUse = number of headers`, the number of
headers being the buffer count `Audio_Init` installed. -/
theorem claim_C2_free_plus_inuse_is_capacity :
    (∀ (n : Nat) (ops : List OpenAL.ALOp),
        (OpenAL.Audio_Poll (OpenAL.runAL (OpenAL.initial n) ops).ctx
            (OpenAL.runAL (OpenAL.initial n) ops).src).1 = .ok ∧
        ((OpenAL.Audio_Poll (OpenAL.runAL (OpenAL.initial n) ops).ctx
            (OpenAL.runAL (OpenAL.initial n) ops).src).2.2.1).free +
          (OpenAL.Audio_Poll (OpenAL.runAL (OpenAL.initial n) ops).ctx
            (OpenAL.runAL (OpenAL.initial n) ops).src).2.1 = n) ∧
    (∀ ctx : WinMM.AudioContext,
        (WinMM.Audio_Poll (fun _ => .ok) ctx).1 = .ok ∧
        (((WinMM.Audio_Poll (fun _ => .ok) ctx).2.2).headers.countP
            (fun h => h.done)) +
          (WinMM.Audio_Poll (fun _ => .ok) ctx).2.1 = ctx.headers.length) ∧
    (∀ (ctx : WinMM.AudioContext) (buffers : Nat),
        ((WinMM.Audio_Init ctx buffers).2).headers.length = buffers) := by
  refine ⟨?_, ?_, ?_⟩
  · intro n ops
    obtain ⟨h1, h2, h3, h4⟩ := OpenAL_inv_run _ (OpenAL_inv_initial n) ops
    unfold OpenAL.Audio_Poll
    rw [if_neg (by rw [h1]; exact one_ne_zero)]
    by_cases hp : 0 < (OpenAL.runAL (OpenAL.initial n) ops).src.processed.length
    · rw [if_pos hp]
      refine ⟨rfl, ?_⟩
      dsimp only
      omega
    · rw [if_neg hp]
      refine ⟨rfl, ?_⟩
      dsimp only
      omega
  · intro ctx
    obtain ⟨p1, p2, p3⟩ := pollHeaders_ok ctx.headers 0
    unfold WinMM.Audio_Poll
    refine ⟨p1, ?_⟩
    dsimp only
    rw [p2, p3]
    have := List.length_eq_countP_add_countP (fun h => h.done) ctx.headers
    simp only [this]
    congr 1
    apply List.countP_congr
    intro h _
    simp
  · intro ctx buffers
    simp [WinMM.Audio_Init]

theorem pass1_busy {Ctx : Type} (b : Pool.Backend Ctx) (d : Pool.AudioData)
    (hinit : ∀ c, (b.init c 1).1 = .ok)
    (hpoll : ∀ c, (b.poll c).1 = .ok ∧ 0 < (b.poll c).2.1) :
    ∀ (is : List Nat) (pool : List Ctx) (tr : List Pool.PoolEv),
      ∃ pool' tr2, Pool.pass1 b d is pool tr = .fellThrough pool' (tr ++ tr2) ∧
        ∀ e ∈ tr2, e.isScan = true := by
  intro is
  induction is with
  | nil =>
    intro pool tr
    exact ⟨pool, [], by simp [Pool.pass1], by simp⟩
  | cons i rest ih =>
    intro pool tr
    by_cases hc : b.getCount (pool.getD i b.dflt) = 0
    · rcases hbi : b.init (pool.getD i b.dflt) 1 with ⟨ir, ci⟩
      have hir : ir = .ok := by
        have := hinit (pool.getD i b.dflt)
        rw [hbi] at this
        exact this
      subst hir
      rcases hbp : b.poll ci with ⟨pr, iu, c2⟩
      have hpp := hpoll ci
      rw [hbp] at hpp
      obtain ⟨hpr, hiu⟩ := hpp
      dsimp only at hpr hiu
      subst hpr
      obtain ⟨pool', tr2, heq, hscan⟩ :=
        ih ((pool.set i ci).set i c2) (tr ++ [.init i] ++ [.poll i])
      simp only [List.set_set, List.append_assoc, List.singleton_append, List.cons_append, List.nil_append] at heq
      simp only [List.getD_eq_getElem?_getD] at hc hbi
      refine ⟨pool', [.init i, .poll i] ++ tr2, ?_, ?_⟩
      · simp [Pool.pass1, hc, hbi, hbp, hiu, heq, List.set_set, List.append_assoc]
      · intro e he
        rcases List.mem_append.mp he with h | h
        · rcases List.mem_cons.mp h with rfl | h
          · rfl
          · rcases List.mem_cons.mp h with rfl | h
            · rfl
            · simp at h
        · exact hscan e h
    · rcases hbp : b.poll (pool.getD i b.dflt) with ⟨pr, iu, c2⟩
      have hpp := hpoll (pool.getD i b.dflt)
      rw [hbp] at hpp
      obtain ⟨hpr, hiu⟩ := hpp
      dsimp only at hpr hiu
      subst hpr
      obtain ⟨pool', tr2, heq, hscan⟩ := ih (pool.set i c2) (tr ++ [.poll i])
      simp only [List.set_set, List.append_assoc, List.singleton_append, List.cons_append, List.nil_append] at heq
      simp only [List.getD_eq_getElem?_getD] at hc hbp
      refine ⟨pool', [.poll i] ++ tr2, ?_, ?_⟩
      · simp [Pool.pass1, hc, hbp, hiu, heq, List.set_set, List.append_assoc]
      · intro e he
        rcases List.mem_append.mp he with h | h
        · rcases List.mem_cons.mp h with rfl | h
          · rfl
          · simp at h
        · exact hscan e h

theorem pass2_busy {Ctx : Type} (b : Pool.Backend Ctx) (d : Pool.AudioData)
    (hpoll : ∀ c, (b.poll c).1 = .ok ∧ 0 < (b.poll c).2.1) :
    ∀ (is : List Nat) (pool : List Ctx) (tr : List Pool.PoolEv),
      ∃ pool' tr2, Pool.pass2 b d is pool tr = .fellThrough pool' (tr ++ tr2) ∧
        ∀ e ∈ tr2, e.isScan = true := by
  intro is
  induction is with
  | nil =>
    intro pool tr
    exact ⟨pool, [], by simp [Pool.pass2], by simp⟩
  | cons i rest ih =>
    intro pool tr
    rcases hbp : b.poll (pool.getD i b.dflt) with ⟨pr, iu, c2⟩
    have hpp := hpoll (pool.getD i b.dflt)
    rw [hbp] at hpp
    obtain ⟨hpr, hiu⟩ := hpp
    dsimp only at hpr hiu
    subst hpr
    obtain ⟨pool', tr2, heq, hscan⟩ := ih (pool.set i c2) (tr ++ [.poll i])
    simp only [List.set_set, List.append_assoc, List.singleton_append,
      List.cons_append, List.nil_append] at heq
    simp only [List.getD_eq_getElem?_getD] at hbp
    refine ⟨pool', [.poll i] ++ tr2, ?_, ?_⟩
    · simp [Pool.pass2, hbp, hiu, heq]
    · intro e he
      rcases List.mem_append.mp he with h | h
      · rcases List.mem_cons.mp h with rfl | h
        · rfl
        · simp at h
      · exact hscan e h

/-- C6: if `Audio_Poll` reports every pooled context busy (a successful
poll with a positive in-use count, in both selection passes, with the
lazy `Audio_Init` of untouched contexts succeeding), `AudioPool_Play`
returns 0 (success) without queueing the chunk, playing anything, or
touching any context's format or volume: the call trace consists of
init/poll scans only. -/
theorem claim_C6_all_busy_silently_dropped {Ctx : Type} (b : Pool.Backend Ctx)
    (pool : List Ctx) (d : Pool.AudioData)
    (hinit : ∀ c, (b.init c 1).1 = .ok)
    (hpoll : ∀ c, (b.poll c).1 = .ok ∧ 0 < (b.poll c).2.1) :
    (Pool.AudioPool_Play b pool d).1 = .ok ∧
    ∀ e ∈ (Pool.AudioPool_Play b pool d).2.2, e.isScan = true := by
  obtain ⟨p1, t1, he1, hs1⟩ :=
    pass1_busy b d hinit hpoll (List.range Pool.POOL_MAX_CONTEXTS) pool []
  obtain ⟨p2, t2, he2, hs2⟩ :=
    pass2_busy b d hpoll (List.range Pool.POOL_MAX_CONTEXTS) p1 ([] ++ t1)
  unfold Pool.AudioPool_Play
  rw [he1]
  dsimp only
  rw [he2]
  refine ⟨rfl, ?_⟩
  intro e he
  rcases List.mem_append.mp he with h | h
  · exact hs1 e (by simpa using h)
  · exact hs2 e h

/-- Witness for the C6 theorem: the all-busy backend over `Unit`
contexts, an 8-slot pool, and a concrete play request — the pool play
returns success and its trace contains only scans. -/
theorem claim_C6_all_busy_silently_dropped_witness :
    (Pool.AudioPool_Play Pool.busyBackend (List.replicate 8 ()) ⟨1, 22050, 100, 80, 4⟩).1 =
      .ok ∧
    ((Pool.AudioPool_Play Pool.busyBackend
        (List.replicate 8 ()) ⟨1, 22050, 100, 80, 4⟩).2.2.all Pool.PoolEv.isScan) = true := by
  have h := claim_C6_all_busy_silently_dropped Pool.busyBackend (List.replicate 8 ())
    ⟨1, 22050, 100, 80, 4⟩ (fun _ => rfl) (fun _ => ⟨rfl, Nat.one_pos⟩)
  exact ⟨h.1, List.all_eq_true.mpr h.2⟩

theorem getD_set_ne {α : Type} (l : List α) {i j : Nat} (hij : i ≠ j) (a dflt : α) :
    (l.set i a).getD j dflt = l.getD j dflt := by
  simp [List.getD_eq_getElem?_getD, List.getElem?_set_ne hij]

theorem pass1_skip_range {Ctx : Type} (b : Pool.Backend Ctx) (d : Pool.AudioData) :
    ∀ (m s : Nat) (l2 : List Nat) (pool : List Ctx) (tr : List Pool.PoolEv),
      (∀ k, k < m → Pool.Skips b (pool.getD (s + k) b.dflt)) →
      ∃ pool',
        Pool.pass1 b d (List.range' s m ++ l2) pool tr =
          Pool.pass1 b d l2 pool' (tr ++ (List.range' s m).map Pool.PoolEv.poll) ∧
        ∀ i, s + m ≤ i → pool'.getD i b.dflt = pool.getD i b.dflt := by
  intro m
  induction m with
  | zero =>
    intro s l2 pool tr _
    exact ⟨pool, by simp, fun i _ => rfl⟩
  | succ m ih =>
    intro s l2 pool tr hsk
    have h0 := hsk 0 (Nat.succ_pos m)
    rw [Nat.add_zero] at h0
    obtain ⟨hc, hpo, hbusy⟩ := h0
    rcases hbp : b.poll (pool.getD s b.dflt) with ⟨pr, iu, c2⟩
    rw [hbp] at hpo hbusy
    dsimp only at hpo hbusy
    subst hpo
    have hsk' : ∀ k, k < m → Pool.Skips b ((pool.set s c2).getD (s + 1 + k) b.dflt) := by
      intro k hk
      rw [getD_set_ne _ (by omega)]
      have := hsk (k + 1) (by omega)
      rwa [show s + (k + 1) = s + 1 + k by omega] at this
    obtain ⟨pool', heq, hpres⟩ := ih (s + 1) l2 (pool.set s c2) (tr ++ [.poll s]) hsk'
    refine ⟨pool', ?_, ?_⟩
    · rw [List.range'_succ]
      simp only [List.getD_eq_getElem?_getD] at hc hbp
      simp only [List.cons_append]
      simp [Pool.pass1, hc, hbp, hbusy, List.set_set]
      rw [heq]
      simp
    · intro i hi
      rw [hpres i (by omega), getD_set_ne _ (by omega)]

/-- C10: during pass 1 of `AudioPool_Play`, with the contexts before
slot `j` scanned-and-busy, an error at slot `j` — either the lazy
`Audio_Init` of an unused (`count == 0`) context failing, or the
`Audio_Poll` failing — makes `AudioPool_Play` return that error code
immediately: the call trace contains only init/poll scans, none of them
past slot `j` (no further scanning), and in particular no
`Audio_QueueChunk`/`PlayAudio` on any context. -/
theorem claim_C10_pass1_error_short_circuits {Ctx : Type} (b : Pool.Backend Ctx)
    (pool : List Ctx) (d : Pool.AudioData) (j : Nat) (e : CCResult)
    (hj : j < 8) (he : e ≠ .ok)
    (hskip : ∀ k, k < j → Pool.Skips b (pool.getD k b.dflt))
    (hfail :
      (b.getCount (pool.getD j b.dflt) = 0 ∧ (b.init (pool.getD j b.dflt) 1).1 = e) ∨
      ((b.getCount (pool.getD j b.dflt) = 0 → (b.init (pool.getD j b.dflt) 1).1 = .ok) ∧
        (b.poll (Pool.lazyInit b (pool.getD j b.dflt))).1 = e)) :
    (Pool.AudioPool_Play b pool d).1 = e ∧
    ∀ ev ∈ (Pool.AudioPool_Play b pool d).2.2, ev.isScan = true ∧ ev.idx ≤ j := by
  have hsplit : List.range Pool.POOL_MAX_CONTEXTS =
      List.range' 0 j ++ List.range' j (8 - j) := by
    rw [Pool.POOL_MAX_CONTEXTS, List.range_eq_range',
      show (8:Nat) = (8 - j) + j by omega, ← List.range'_append]
    norm_num
  obtain ⟨pool', heq, hpres⟩ := pass1_skip_range b d j 0 (List.range' j (8 - j)) pool []
    (by intro k hk; simpa using hskip k hk)
  have hgj : pool'.getD j b.dflt = pool.getD j b.dflt := hpres j (by omega)
  obtain ⟨n', hn'⟩ : ∃ n', 8 - j = n' + 1 := ⟨8 - j - 1, by omega⟩
  have htr1 : ∀ ev ∈ (List.range' 0 j).map Pool.PoolEv.poll,
      ev.isScan = true ∧ ev.idx ≤ j := by
    intro ev hev
    obtain ⟨k, hk, rfl⟩ := List.mem_map.mp hev
    have hkj := (List.mem_range'_1.mp hk).2
    exact ⟨rfl, by simp only [Pool.PoolEv.idx]; omega⟩
  rcases hfail with ⟨hc, hie⟩ | ⟨hiok, hpe⟩
  · rcases hbi : b.init (pool.getD j b.dflt) 1 with ⟨ir, ci⟩
    rw [hbi] at hie
    dsimp only at hie
    obtain rfl := hie.symm
    have hred : Pool.pass1 b d (List.range' j (8 - j)) pool'
        ([] ++ (List.range' 0 j).map Pool.PoolEv.poll) =
        .result e (pool'.set j ci)
          ((List.range' 0 j).map Pool.PoolEv.poll ++ [.init j]) := by
      rw [hn', List.range'_succ]
      simp only [List.getD_eq_getElem?_getD] at hgj hc hbi
      simp [Pool.pass1, hgj, hc, hbi, he]
    unfold Pool.AudioPool_Play
    rw [hsplit, heq, hred]
    refine ⟨rfl, ?_⟩
    intro ev hev
    rcases List.mem_append.mp hev with h | h
    · exact htr1 ev h
    · rcases List.mem_cons.mp h with rfl | h
      · exact ⟨rfl, le_refl j⟩
      · simp at h
  · by_cases hc : b.getCount (pool.getD j b.dflt) = 0
    · have hin := hiok hc
      rcases hbi : b.init (pool.getD j b.dflt) 1 with ⟨ir, ci⟩
      rw [hbi] at hin
      dsimp only at hin
      subst hin
      have hlz : Pool.lazyInit b (pool.getD j b.dflt) = ci := by
        unfold Pool.lazyInit
        rw [if_pos hc, hbi]
      rcases hbp : b.poll ci with ⟨pr, iu, c2⟩
      rw [hlz, hbp] at hpe
      dsimp only at hpe
      obtain rfl := hpe.symm
      have hred : Pool.pass1 b d (List.range' j (8 - j)) pool'
          ([] ++ (List.range' 0 j).map Pool.PoolEv.poll) =
          .result e ((pool'.set j ci).set j c2)
            ((List.range' 0 j).map Pool.PoolEv.poll ++ [.init j] ++ [.poll j]) := by
        rw [hn', List.range'_succ]
        simp only [List.getD_eq_getElem?_getD] at hgj hc hbi
        simp [Pool.pass1, hgj, hc, hbi, hbp, he, List.set_set]
      unfold Pool.AudioPool_Play
      rw [hsplit, heq, hred]
      refine ⟨rfl, ?_⟩
      intro ev hev
      rcases List.mem_append.mp hev with h | h
      · rcases List.mem_append.mp h with h | h
        · exact htr1 ev h
        · rcases List.mem_cons.mp h with rfl | h
          · exact ⟨rfl, le_refl j⟩
          · simp at h
      · rcases List.mem_cons.mp h with rfl | h
        · exact ⟨rfl, le_refl j⟩
        · simp at h
    · have hlz : Pool.lazyInit b (pool.getD j b.dflt) = pool.getD j b.dflt := by
        unfold Pool.lazyInit
        rw [if_neg hc]
      rcases hbp : b.poll (pool.getD j b.dflt) with ⟨pr, iu, c2⟩
      rw [hlz, hbp] at hpe
      dsimp only at hpe
      obtain rfl := hpe.symm
      have hred : Pool.pass1 b d (List.range' j (8 - j)) pool'
          ([] ++ (List.range' 0 j).map Pool.PoolEv.poll) =
          .result e (pool'.set j c2)
            ((List.range' 0 j).map Pool.PoolEv.poll ++ [.poll j]) := by
        rw [hn', List.range'_succ]
        simp only [List.getD_eq_getElem?_getD] at hgj hc hbp
        simp [Pool.pass1, hgj, hc, hbp, he, List.set_set]
      unfold Pool.AudioPool_Play
      rw [hsplit, heq, hred]
      refine ⟨rfl, ?_⟩
      intro ev hev
      rcases List.mem_append.mp hev with h | h
      · exact htr1 ev h
      · rcases List.mem_cons.mp h with rfl | h
        · exact ⟨rfl, le_refl j⟩
        · simp at h

/-- Witness for the C10 theorem: the init-failing backend over `Unit`
contexts at slot 0 — `AudioPool_Play` returns the init error and the
trace touches only slot 0 with a scan. -/
theorem claim_C10_pass1_error_short_circuits_witness :
    (Pool.AudioPool_Play Pool.initFailBackend (List.replicate 8 ())
        ⟨1, 22050, 100, 80, 4⟩).1 = .err 5 ∧
    ((Pool.AudioPool_Play Pool.initFailBackend (List.replicate 8 ())
        ⟨1, 22050, 100, 80, 4⟩).2.2.all
      (fun ev => ev.isScan && (ev.idx == 0))) = true := by
  have h := claim_C10_pass1_error_short_circuits Pool.initFailBackend (List.replicate 8 ())
    ⟨1, 22050, 100, 80, 4⟩ 0 (.err 5) (by norm_num) (by decide)
    (fun k hk => absurd hk (Nat.not_lt_zero k))
    (Or.inl ⟨rfl, rfl⟩)
  refine ⟨h.1, List.all_eq_true.mpr ?_⟩
  intro ev hev
  obtain ⟨h1, h2⟩ := h.2 ev hev
  simp [h1, Nat.le_zero.mp h2]
